import Mathlib

/-!
Verification development for the MA-Policy-Feed aggregator.

The repository has two Python entry points:
* `src/main.py` — the multi-source variant: RSS feeds plus ICS calendars,
  windowing, Markdown rendering grouped in two category sections;
* `src/src/main.py` — the RSS-only variant.

This file gives a shallow embedding of the program's data model and logic:

* An *instant* (a timezone-aware datetime normalized to UTC) is represented by
  its count of seconds since the Unix epoch, as an `Int`.  For normalized UTC
  datetimes, Python's comparison operators and `timedelta` arithmetic coincide
  with integer arithmetic on this representation, and the ISO-8601 strings the
  program stores (`.astimezone(timezone.utc).isoformat()`) are lexicographically
  ordered exactly like the instants they denote, so sorting by the stored string
  is sorting by the instant.
* A *wall-clock datetime* (what Python's `datetime` stores: civil fields) is
  represented by the structure `CivilDT` below; `astimezone` to a fixed-offset
  zone is wall-clock shifting, embedded as `addSeconds`.

Machine integers do not appear: Python integers are unbounded, as is `Int`.
-/

/-- Civil (wall-clock) datetime: the field content of a Python `datetime`,
without its `tzinfo`.  Seconds granularity (the program formats to minutes and
the spec speaks in seconds). -/
structure CivilDT where
  year : Int
  month : Int
  day : Int
  hour : Int
  minute : Int
  second : Int
deriving DecidableEq, Repr

/-- Gregorian leap-year rule, as Python's `calendar.isleap` / the proleptic
Gregorian calendar used by `datetime`. -/
def isLeap (y : Int) : Bool :=
  (y % 4 == 0 && y % 100 != 0) || y % 400 == 0

/-- Number of days of month `m` of year `y`. -/
def daysInMonth (y m : Int) : Int :=
  if m = 2 then (if isLeap y then 29 else 28)
  else if m = 4 ∨ m = 6 ∨ m = 9 ∨ m = 11 then 30
  else 31

/-- Successor calendar day, keeping the time fields. -/
def nextDay (c : CivilDT) : CivilDT :=
  if c.day < daysInMonth c.year c.month then
    { c with day := c.day + 1 }
  else if c.month < 12 then
    { c with month := c.month + 1, day := 1 }
  else
    { c with year := c.year + 1, month := 1, day := 1 }

/-- Predecessor calendar day, keeping the time fields. -/
def prevDay (c : CivilDT) : CivilDT :=
  if 1 < c.day then
    { c with day := c.day - 1 }
  else if 1 < c.month then
    { c with month := c.month - 1, day := daysInMonth c.year (c.month - 1) }
  else
    { c with year := c.year - 1, month := 12, day := 31 }

/-- Iterate `nextDay`. -/
def addDaysFwd : Nat → CivilDT → CivilDT
  | 0, c => c
  | n + 1, c => addDaysFwd n (nextDay c)

/-- Iterate `prevDay`. -/
def addDaysBwd : Nat → CivilDT → CivilDT
  | 0, c => c
  | n + 1, c => addDaysBwd n (prevDay c)

/-- Shift a civil datetime by `q` calendar days (time fields unchanged). -/
def addDays (c : CivilDT) (q : Int) : CivilDT :=
  if 0 ≤ q then addDaysFwd q.toNat c else addDaysBwd (-q).toNat c

/-- Wall-clock arithmetic: add `delta` seconds to a civil datetime, carrying
into the date fields.  This is the semantics of Python `datetime` ±
`timedelta`, and of `astimezone` between fixed offsets (which shifts the wall
clock by the offset difference). -/
def addSeconds (c : CivilDT) (delta : Int) : CivilDT :=
  let tod := c.hour * 3600 + c.minute * 60 + c.second + delta
  let q := tod.fdiv 86400
  let r := tod.fmod 86400
  let nd := addDays c q
  { year := nd.year, month := nd.month, day := nd.day,
    hour := r.fdiv 3600, minute := (r.fmod 3600).fdiv 60, second := r.fmod 60 }

/-- Days from the Unix epoch (1970-01-01) to civil date `(y, m, d)`,
proleptic Gregorian (Howard Hinnant's `days_from_civil` algorithm, which is
what every civil-to-epoch conversion, Python's included, computes). -/
def daysFromCivil (y m d : Int) : Int :=
  let y2 := if m ≤ 2 then y - 1 else y
  let era := y2.fdiv 400
  let yoe := y2 - era * 400
  let mp := (m + 9) % 12
  let doy := (153 * mp + 2).fdiv 5 + d - 1
  let doe := yoe * 365 + yoe.fdiv 4 - yoe.fdiv 100 + doy
  era * 146097 + doe - 719468

/-- Civil date of a day count from the Unix epoch (Hinnant's
`civil_from_days`); time fields zero. -/
def civilFromDays (z : Int) : CivilDT :=
  let z2 := z + 719468
  let era := z2.fdiv 146097
  let doe := z2 - era * 146097
  let yoe := (doe - doe.fdiv 1460 + doe.fdiv 36524 - doe.fdiv 146096).fdiv 365
  let doy := doe - (365 * yoe + yoe.fdiv 4 - yoe.fdiv 100)
  let mp := (5 * doy + 2).fdiv 153
  let d := doy - (153 * mp + 2).fdiv 5 + 1
  let m := if mp < 10 then mp + 3 else mp - 9
  let y := yoe + era * 400 + (if m ≤ 2 then 1 else 0)
  { year := y, month := m, day := d, hour := 0, minute := 0, second := 0 }

/-- The UTC instant (epoch seconds) denoted by a civil datetime read as UTC. -/
def instantOfCivil (c : CivilDT) : Int :=
  daysFromCivil c.year c.month c.day * 86400
    + c.hour * 3600 + c.minute * 60 + c.second

/-- The UTC civil datetime of an instant. -/
def civilOfEpoch (e : Int) : CivilDT :=
  let days := e.fdiv 86400
  let sod := e.fmod 86400
  let dt := civilFromDays days
  { year := dt.year, month := dt.month, day := dt.day,
    hour := sod.fdiv 3600, minute := (sod.fmod 3600).fdiv 60, second := sod.fmod 60 }

/-- Day of week of a civil date, `0` = Sunday (epoch day `0`, 1970-01-01, is a
Thursday, hence the `+ 4`). -/
def dayOfWeek (y m d : Int) : Int :=
  (daysFromCivil y m d + 4).fmod 7

/-- Day of month (in `[1, 7]`) of the first Sunday of month `m` of year `y`. -/
def firstSundayOf (y m : Int) : Int :=
  1 + (7 - dayOfWeek y m 1).fmod 7

/-- Whether US daylight-saving time is in effect for `America/New_York` at the
UTC civil datetime `c` (post-2007 rule, the one the tz database applies to
these dates: DST from the second Sunday of March 07:00 UTC, i.e. 02:00 EST, to
the first Sunday of November 06:00 UTC, i.e. 02:00 EDT). -/
def nyIsDST (c : CivilDT) : Bool :=
  let tod := c.hour * 3600 + c.minute * 60 + c.second
  let ssm := firstSundayOf c.year 3 + 7
  let fsn := firstSundayOf c.year 11
  if c.month < 3 ∨ 11 < c.month then false
  else if 3 < c.month ∧ c.month < 11 then true
  else if c.month = 3 then decide (ssm < c.day ∨ (c.day = ssm ∧ 7 * 3600 ≤ tod))
  else decide (c.day < fsn ∨ (c.day = fsn ∧ tod < 6 * 3600))

/-- UTC offset, in seconds, of `America/New_York` at the UTC civil datetime
`c`: `-4` hours during DST (EDT), `-5` hours otherwise (EST). -/
def nyOffsetSec (c : CivilDT) : Int :=
  if nyIsDST c then -14400 else -18000

/-- The `America/New_York` wall clock corresponding to the UTC civil datetime
`c` (what `dt.astimezone(ZoneInfo("America/New_York"))` shows). -/
def nyFromUTC (c : CivilDT) : CivilDT :=
  addSeconds c (nyOffsetSec c)

/-- Zero-pad a nonnegative integer to two digits (`%m`, `%d`, `%H`, `%M`). -/
def pad2 (n : Int) : String :=
  if n.toNat < 10 then "0" ++ toString n.toNat else toString n.toNat

/-- Zero-pad a nonnegative integer to four digits (`%Y`). -/
def pad4 (n : Int) : String :=
  if n.toNat < 10 then "000" ++ toString n.toNat
  else if n.toNat < 100 then "00" ++ toString n.toNat
  else if n.toNat < 1000 then "0" ++ toString n.toNat
  else toString n.toNat

/-- `strftime("%Y-%m-%d %H:%M")`. -/
def fmtYMDHM (c : CivilDT) : String :=
  pad4 c.year ++ "-" ++ pad2 c.month ++ "-" ++ pad2 c.day ++ " "
    ++ pad2 c.hour ++ ":" ++ pad2 c.minute

/-- Embedding of `iso_ny` (src/main.py lines 18-27): `c` is a normalized UTC
civil datetime; when `zoneinfoOk` (the `zoneinfo` import succeeds), render the
`America/New_York` wall clock; otherwise render the UTC wall clock with an
explicit `UTC` suffix. -/
def iso_ny (zoneinfoOk : Bool) (c : CivilDT) : String :=
  if zoneinfoOk then fmtYMDHM (nyFromUTC c)
  else fmtYMDHM c ++ " UTC"

/-- Display string of a stored normalized instant: the program stores
`dt.astimezone(timezone.utc).isoformat()` and renders
`iso_ny(datetime.fromisoformat(...))`; the round trip preserves the instant,
so display is `iso_ny` of the instant's UTC civil form.  `zoneinfo` is
available in the reference runtime (Python ≥ 3.9). -/
def displayNY (e : Int) : String :=
  iso_ny true (civilOfEpoch e)

/-- Python's default `str.strip` whitespace set (the ASCII part; the feeds
are ASCII-delimited). -/
def isSpaceChar (ch : Char) : Bool :=
  ch = ' ' ∨ ch = '\t' ∨ ch = '\n' ∨ ch = '\r' ∨ ch = '\x0b' ∨ ch = '\x0c'

/-- Drop leading whitespace characters. -/
def dropLeadingSpaces : List Char → List Char
  | [] => []
  | ch :: rest => if isSpaceChar ch then dropLeadingSpaces rest else ch :: rest

/-- Python `str.strip()`: remove leading and trailing whitespace. -/
def stripStr (s : String) : String :=
  ⟨(dropLeadingSpaces (dropLeadingSpaces s.data).reverse).reverse⟩

/-- Python `s.replace("\n", " ")`: a single-character pattern, so a
character-wise map. -/
def replaceNlChars : List Char → List Char
  | [] => []
  | ch :: rest => (if ch = '\n' then ' ' else ch) :: replaceNlChars rest

/-- Python `s.replace("\n", " ")` on a string. -/
def replaceNl (s : String) : String :=
  ⟨replaceNlChars s.data⟩

/-! ## Window filter -/

/-- Embedding of `within_window` (src/main.py lines 29-30): both arguments are
normalized UTC instants; the comparison `dt_obj >= since_dt` on aware
datetimes is the comparison of the instants they denote. -/
def within_window (dtObj sinceDt : Int) : Bool :=
  decide (sinceDt ≤ dtObj)

/-! ## RSS adapter and its timestamp resolver -/

/-- Result of `dateutil.parser.parse` on a free-text timestamp field: the
parsed wall-clock value (seconds, read as if it were UTC) and the explicit
UTC offset carried by the string, if any (`none` = the parse produced a naive
datetime). -/
structure ParsedDT where
  wall : Int
  tz : Option Int
deriving DecidableEq, Repr

/-- A feedparser entry, as far as `fetch_rss` consults it.  Each free-text
field is `none` when absent from the entry; `some none` when present but its
parse raises; `some (some p)` when present and parsing to `p`.
`published_parsed` is the structured 6-tuple, already reduced to the
wall-clock seconds it lists (`none` when the key is absent or falsy). -/
structure RSSEntry where
  published : Option (Option ParsedDT)
  updated : Option (Option ParsedDT)
  created : Option (Option ParsedDT)
  published_parsed : Option Int
  title : Option String
  link : Option String
deriving DecidableEq, Repr

/-- The `for key in ("published", "updated", "created")` loop of `fetch_rss`
(src/main.py lines 38-44): take the first present field whose parse succeeds;
a present field whose parse raises is passed over like an absent one. -/
def tryKeys : List (Option (Option ParsedDT)) → Option ParsedDT
  | [] => none
  | f :: rest =>
    match f with
    | some (some p) => some p
    | _ => tryKeys rest

/-- Timestamp resolution of `fetch_rss` (src/main.py lines 36-46): the text
fields in order, then the `published_parsed` tuple read as UTC
(`datetime(*e.published_parsed[:6], tzinfo=timezone.utc)`). -/
def resolveRSS (e : RSSEntry) : Option ParsedDT :=
  match tryKeys [e.published, e.updated, e.created] with
  | some p => some p
  | none =>
    match e.published_parsed with
    | some w => some ⟨w, some 0⟩
    | none => none

/-- Modelled from the spec (§4.1, §9): the Timestamp Resolver contract as the
spec words it — an ordered list of extraction attempts, each returning
success or absence, short-circuiting on the first success, then the
structured tuple assumed UTC, else unresolved.  Compared against `resolveRSS`
(the code) in the claim C3 theorem. -/
def specResolveRSS (e : RSSEntry) : Option ParsedDT :=
  (e.published.bind id).orElse fun _ =>
    (e.updated.bind id).orElse fun _ =>
      (e.created.bind id).orElse fun _ =>
        e.published_parsed.map fun w => ⟨w, some 0⟩

/-- The instant stored for a resolved RSS timestamp (src/main.py line 58):
`to_dt(dt_candidate).astimezone(timezone.utc)`.  On an aware datetime,
`astimezone` preserves the instant (`wall - offset`); on a *naive* datetime,
Python's `astimezone` presumes the wall clock is in the *system local
timezone*, whose UTC offset at that wall time is the parameter `localOff`. -/
def rssStoredInstant (localOff : Int) (p : ParsedDT) : Int :=
  match p.tz with
  | some o => p.wall - o
  | none => p.wall - localOff

/-- Title of an RSS item (src/main.py line 50):
`e.get("title", "").strip() or "(untitled)"`. -/
def rssTitleOf (e : RSSEntry) : String :=
  let t := stripStr (e.title.getD "")
  if t = "" then "(untitled)" else t

/-- Source label of an RSS feed (src/main.py line 52):
`(fp.feed.get("title") or url).strip()`. -/
def rssSourceOf (url : String) (feedTitle : Option String) : String :=
  stripStr
    (match feedTitle with
     | some t => if t = "" then url else t
     | none => url)

/-- Category tag of a uniform item (the `"type"` key). -/
inductive ItemType where
  | rss
  | ics
deriving DecidableEq, Repr

/-- The uniform item dictionary both adapters produce.  `dt` is the stored
normalized instant: the program keeps it as the ISO-8601 string of the UTC
datetime, which denotes exactly this instant and compares (string-wise) the
same way. -/
structure Item where
  type : ItemType
  source : String
  title : String
  link : String
  dt : Int
deriving DecidableEq, Repr

/-- Embedding of `fetch_rss` (src/main.py lines 32-60) applied to a parsed
feed: `url` the source URL, `feedTitle` the feed's declared title, `entries`
the entry list.  Entries whose timestamp does not resolve are skipped
(`continue`). -/
def fetchRSS (localOff : Int) (url : String) (feedTitle : Option String)
    (entries : List RSSEntry) : List Item :=
  entries.filterMap fun e =>
    (resolveRSS e).map fun p =>
      { type := ItemType.rss,
        source := rssSourceOf url feedTitle,
        title := rssTitleOf e,
        link := stripStr (e.link.getD ""),
        dt := rssStoredInstant localOff p }

/-! ## ICS adapter -/

/-- The `.dt` value of an icalendar `DTSTART` property: either a full datetime
(wall-clock civil fields plus optional explicit UTC offset) or a date-only
value. -/
inductive DTStartVal where
  | dateTime (c : CivilDT) (tz : Option Int)
  | dateOnly (y m d : Int)
deriving DecidableEq, Repr

/-- A parsed calendar component, as far as `fetch_ics` consults it. -/
structure ICSComp where
  name : String
  summary : Option String
  dtstart : Option DTStartVal
  url : Option String
  organizer : Option String
deriving DecidableEq, Repr

/-- Normalization of a DTSTART value to a UTC civil datetime (src/main.py
lines 75-83): a naive datetime gets `tzinfo=timezone.utc` attached (wall clock
kept); an aware one is converted (`astimezone`, wall clock shifted by the
negated offset); a date-only value becomes noon UTC on that calendar date. -/
def dtstartToUTC : DTStartVal → CivilDT
  | DTStartVal.dateTime c none => c
  | DTStartVal.dateTime c (some o) => addSeconds c (-o)
  | DTStartVal.dateOnly y m d => ⟨y, m, d, 12, 0, 0⟩

/-- Title of an ICS item (src/main.py line 70):
`str(comp.get("summary", "(no title)"))` — the placeholder is the `.get`
default, used only when the property is absent. -/
def icsTitleOf (c : ICSComp) : String :=
  match c.summary with
  | some s => s
  | none => "(no title)"

/-- Embedding of the per-component loop of `fetch_ics` (src/main.py lines
67-94): keep VEVENTs having a DTSTART; `source` is the calendar URL. -/
def fetchICS (url : String) (comps : List ICSComp) : List Item :=
  comps.filterMap fun c =>
    if c.name ≠ "VEVENT" then none
    else
      match c.dtstart with
      | none => none
      | some v =>
        some { type := ItemType.ics,
               source := url,
               title := icsTitleOf c,
               link := (c.url.getD ""),
               dt := instantOfCivil (dtstartToUTC v) }

/-! ## Report renderer -/

/-- Title cleanup in a bullet (src/main.py lines 112, 127):
`it["title"].replace("\n", " ").strip()`. -/
def cleanTitle (t : String) : String :=
  stripStr (replaceNl t)

/-- Modelled from the spec (§4.4): an item line whose title is rendered as a
hyperlink — `- **<time>** — [<title>](<link>)  _<source>_`. -/
def hyperlinkLine (dtLocal title link src : String) : String :=
  "- **" ++ dtLocal ++ "** — [" ++ title ++ "](" ++ link ++ ")  _" ++ src ++ "_"

/-- Modelled from the spec (§4.4): an item line whose title is plain text —
`- **<time>** — <title>  _<source>_`. -/
def plainLine (dtLocal title src : String) : String :=
  "- **" ++ dtLocal ++ "** — " ++ title ++ "  _" ++ src ++ "_"

/-- Bullet for a press-release item (src/main.py line 115): the f-string
always emits `[title](link)` markup, with no case split on `link`. -/
def rssBullet (it : Item) : String :=
  "- **" ++ displayNY it.dt ++ "** — [" ++ cleanTitle it.title ++ "]("
    ++ it.link ++ ")  _" ++ it.source ++ "_"

/-- Bullet for an event item (src/main.py lines 130-133): `if link:` picks
the hyperlink f-string for a non-empty link, the plain one otherwise. -/
def icsBullet (it : Item) : String :=
  if it.link ≠ "" then
    "- **" ++ displayNY it.dt ++ "** — [" ++ cleanTitle it.title ++ "]("
      ++ it.link ++ ")  _" ++ it.source ++ "_"
  else
    "- **" ++ displayNY it.dt ++ "** — " ++ cleanTitle it.title ++ "  _"
      ++ it.source ++ "_"

/-- Stable descending insertion: place `x` before the first element whose
timestamp is at most `x`'s. -/
def insertDesc (x : Item) : List Item → List Item
  | [] => [x]
  | y :: ys => if y.dt ≤ x.dt then x :: y :: ys else y :: insertDesc x ys

/-- Stable sort by stored timestamp, descending.  This is the unique stable
descending order, hence the result of the program's
`sorted(items, key=lambda x: x["dt"], reverse=True)` (Python's sort is
stable, and on these items the ISO-string keys order like the instants). -/
def sortDesc : List Item → List Item
  | [] => []
  | x :: xs => insertDesc x (sortDesc xs)

/-- The press-release items in the order the renderer lists them
(src/main.py lines 102, 110). -/
def rssRendered (items : List Item) : List Item :=
  sortDesc (items.filter fun i => i.type = ItemType.rss)

/-- The event items in the order the renderer lists them
(src/main.py lines 103, 125). -/
def icsRendered (items : List Item) : List Item :=
  sortDesc (items.filter fun i => i.type = ItemType.ics)

/-- Embedding of `render_markdown` (src/main.py lines 101-140), as the list
of lines the program joins with newlines. -/
def renderMarkdown (items : List Item) (reportDate : String) : List String :=
  let rssIts := rssRendered items
  let icsIts := icsRendered items
  let rssBlock :=
    if rssIts = [] then
      ["## Press Releases", "> No new items in the last 24 hours.", ""]
    else
      ["## Press Releases (last 24h)", ""] ++ rssIts.map rssBullet ++ [""]
  let icsBlock :=
    if icsIts = [] then
      ["## Hearings & Meetings", "> No events starting in the last 24 hours.", ""]
    else
      ["## Hearings & Meetings (last 24h window start times)", ""]
        ++ icsIts.map icsBullet ++ [""]
  ["# Massachusetts Policy Feed — " ++ reportDate, ""] ++ rssBlock ++ icsBlock

/-! ## Run driver -/

/-- Outcome of fetching one RSS source: the warning branch of the driver
catches any exception as `Except.error` with its message; success carries the
feed's declared title and its entries. -/
abbrev RSSFetch := Except String (Option String × List RSSEntry)

/-- Outcome of fetching one ICS source. -/
abbrev ICSFetch := Except String (List ICSComp)

/-- The first driver loop (src/main.py lines 155-162): per source, on success
filter each fetched item through the window, on exception print a warning to
stderr and move on.  Returns (accumulated items, warning lines). -/
def runRSSLoop (localOff since : Int) :
    List (String × RSSFetch) → List Item × List String
  | [] => ([], [])
  | (u, r) :: rest =>
    let acc := runRSSLoop localOff since rest
    match r with
    | Except.error e =>
      (acc.1, ("[WARN] RSS fetch failed: " ++ u ++ ": " ++ e) :: acc.2)
    | Except.ok (ft, es) =>
      ((fetchRSS localOff u ft es).filter (fun it => within_window it.dt since)
         ++ acc.1,
       acc.2)

/-- The second driver loop (src/main.py lines 164-171). -/
def runICSLoop (since : Int) :
    List (String × ICSFetch) → List Item × List String
  | [] => ([], [])
  | (u, r) :: rest =>
    let acc := runICSLoop since rest
    match r with
    | Except.error e =>
      (acc.1, ("[WARN] ICS fetch failed: " ++ u ++ ": " ++ e) :: acc.2)
    | Except.ok comps =>
      ((fetchICS u comps).filter (fun it => within_window it.dt since) ++ acc.1,
       acc.2)

/-- Embedding of the collection phase of `main` (src/main.py lines 154-171):
both loops in order; `since` is the already-computed cutoff `now - window`;
first component the collected `all_items`, second the stderr warning lines. -/
def runDriver (localOff since : Int) (rssSrcs : List (String × RSSFetch))
    (icsSrcs : List (String × ICSFetch)) : List Item × List String :=
  let r := runRSSLoop localOff since rssSrcs
  let c := runICSLoop since icsSrcs
  (r.1 ++ c.1, r.2 ++ c.2)

/-- All items the adapters resolve for one RSS source, before windowing
(empty for a failed fetch). -/
def sourceItemsRSS (localOff : Int) : String × RSSFetch → List Item
  | (u, Except.ok (ft, es)) => fetchRSS localOff u ft es
  | (_, Except.error _) => []

/-- All items the adapters resolve for one ICS source, before windowing. -/
def sourceItemsICS : String × ICSFetch → List Item
  | (u, Except.ok comps) => fetchICS u comps
  | (_, Except.error _) => []

/-- Every item any adapter resolves in a run, in source order, before the
window filter. -/
def resolvedItems (localOff : Int) (rssSrcs : List (String × RSSFetch))
    (icsSrcs : List (String × ICSFetch)) : List Item :=
  rssSrcs.flatMap (sourceItemsRSS localOff) ++ icsSrcs.flatMap sourceItemsICS

/-! ## Helper lemmas -/

lemma mem_insertDesc {a x : Item} : ∀ l : List Item,
    a ∈ insertDesc x l ↔ a = x ∨ a ∈ l := by
  intro l
  induction l with
  | nil => simp [insertDesc]
  | cons y ys ih =>
    simp only [insertDesc]
    split
    · simp [List.mem_cons]
    · simp only [List.mem_cons, ih]
      tauto

lemma insertDesc_ne_nil (x : Item) : ∀ l : List Item, insertDesc x l ≠ [] := by
  intro l
  cases l with
  | nil => simp [insertDesc]
  | cons y ys => simp only [insertDesc]; split <;> simp

lemma sortDesc_eq_nil_iff : ∀ l : List Item, sortDesc l = [] ↔ l = [] := by
  intro l
  cases l with
  | nil => simp [sortDesc]
  | cons x xs =>
    simp only [sortDesc]
    exact ⟨fun h => absurd h (insertDesc_ne_nil x _), fun h => by cases h⟩

lemma pairwise_insertDesc {x : Item} {l : List Item}
    (h : List.Pairwise (fun a b => b.dt ≤ a.dt) l) :
    List.Pairwise (fun a b => b.dt ≤ a.dt) (insertDesc x l) := by
  induction l with
  | nil => simp [insertDesc]
  | cons y ys ih =>
    rcases List.pairwise_cons.mp h with ⟨hy, hys⟩
    simp only [insertDesc]
    split
    · rename_i hle
      refine List.pairwise_cons.mpr ⟨?_, h⟩
      intro b hb
      rcases List.mem_cons.mp hb with rfl | hb
      · exact hle
      · exact le_trans (hy b hb) hle
    · rename_i hgt
      push_neg at hgt
      refine List.pairwise_cons.mpr ⟨?_, ih hys⟩
      intro b hb
      rcases (mem_insertDesc ys).mp hb with rfl | hb
      · exact le_of_lt hgt
      · exact hy b hb

lemma sortDesc_pairwise : ∀ l : List Item,
    List.Pairwise (fun a b => b.dt ≤ a.dt) (sortDesc l) := by
  intro l
  induction l with
  | nil => simp [sortDesc]
  | cons x xs ih => simpa [sortDesc] using pairwise_insertDesc ih

lemma filter_insertDesc (v : Int) (x : Item) : ∀ l : List Item,
    (insertDesc x l).filter (fun it => it.dt == v)
      = if x.dt = v then x :: l.filter (fun it => it.dt == v)
        else l.filter (fun it => it.dt == v) := by
  intro l
  induction l with
  | nil => by_cases h : x.dt = v <;> simp [insertDesc, h]
  | cons y ys ih =>
    simp only [insertDesc]
    split
    · rename_i hle
      by_cases h : x.dt = v <;> simp [List.filter_cons, h]
    · rename_i hgt
      push_neg at hgt
      by_cases h : x.dt = v
      · have hy : ¬(y.dt = v) := by omega
        simp [List.filter_cons, ih, h, hy]
      · by_cases hy : y.dt = v <;> simp [List.filter_cons, ih, h, hy]

lemma sortDesc_filter (v : Int) : ∀ l : List Item,
    (sortDesc l).filter (fun it => it.dt == v)
      = l.filter (fun it => it.dt == v) := by
  intro l
  induction l with
  | nil => rfl
  | cons x xs ih =>
    simp only [sortDesc, filter_insertDesc, ih]
    by_cases h : x.dt = v <;> simp [List.filter_cons, h]

lemma runRSSLoop_items (localOff since : Int) :
    ∀ srcs : List (String × RSSFetch),
      (runRSSLoop localOff since srcs).1
        = ((srcs.flatMap (sourceItemsRSS localOff)).filter
            fun it => within_window it.dt since) := by
  intro srcs
  induction srcs with
  | nil => rfl
  | cons x rest ih =>
    rcases x with ⟨u, r⟩
    rcases r with e | ⟨ft, es⟩ <;>
      simp only [runRSSLoop, sourceItemsRSS, List.flatMap_cons, List.filter_append,
        List.nil_append, ih]

lemma runICSLoop_items (since : Int) :
    ∀ srcs : List (String × ICSFetch),
      (runICSLoop since srcs).1
        = ((srcs.flatMap sourceItemsICS).filter
            fun it => within_window it.dt since) := by
  intro srcs
  induction srcs with
  | nil => rfl
  | cons x rest ih =>
    rcases x with ⟨u, r⟩
    rcases r with e | comps <;>
      simp only [runICSLoop, sourceItemsICS, List.flatMap_cons, List.filter_append,
        List.nil_append, ih]

lemma runRSSLoop_mid_error (localOff since : Int) (u msg : String)
    (post : List (String × RSSFetch)) :
    ∀ pre : List (String × RSSFetch),
      (runRSSLoop localOff since (pre ++ (u, Except.error msg) :: post)).1
          = (runRSSLoop localOff since (pre ++ post)).1
        ∧ ("[WARN] RSS fetch failed: " ++ u ++ ": " ++ msg)
            ∈ (runRSSLoop localOff since (pre ++ (u, Except.error msg) :: post)).2 := by
  intro pre
  induction pre with
  | nil => simp [runRSSLoop]
  | cons x rest ih =>
    rcases x with ⟨u2, r⟩
    rcases r with e | ⟨ft, es⟩ <;> simp [runRSSLoop, ih]

lemma runICSLoop_mid_error (since : Int) (u msg : String)
    (post : List (String × ICSFetch)) :
    ∀ pre : List (String × ICSFetch),
      (runICSLoop since (pre ++ (u, Except.error msg) :: post)).1
          = (runICSLoop since (pre ++ post)).1
        ∧ ("[WARN] ICS fetch failed: " ++ u ++ ": " ++ msg)
            ∈ (runICSLoop since (pre ++ (u, Except.error msg) :: post)).2 := by
  intro pre
  induction pre with
  | nil => simp [runICSLoop]
  | cons x rest ih =>
    rcases x with ⟨u2, r⟩
    rcases r with e | comps <;> simp [runICSLoop, ih]

lemma fetchRSS_drop (localOff : Int) (u : String) (ft : Option String)
    {e : RSSEntry} (h : resolveRSS e = none) (l1 l2 : List RSSEntry) :
    fetchRSS localOff u ft (l1 ++ e :: l2) = fetchRSS localOff u ft (l1 ++ l2) := by
  simp [fetchRSS, List.filterMap_append, List.filterMap_cons, h]

lemma fetchICS_drop (url : String) {c : ICSComp} (h : c.dtstart = none)
    (m1 m2 : List ICSComp) :
    fetchICS url (m1 ++ c :: m2) = fetchICS url (m1 ++ m2) := by
  simp [fetchICS, List.filterMap_append, List.filterMap_cons, h, ite_self]

/-! ## Claims -/

/-- C1: for every item and every reference instant `now` and window duration
`wnd`, the driver retains an adapter-resolved item iff its normalized UTC
timestamp satisfies `timestamp ≥ now - wnd` (the collected list is exactly
the resolved items passing `within_window`); the boundary is inclusive: a
timestamp of exactly `now - wnd` passes the filter and one a second older
does not. -/
theorem C1_window_filter_boundary_inclusive
    (localOff now wnd : Int) (rsrcs : List (String × RSSFetch))
    (icsrcs : List (String × ICSFetch)) (t : Int) :
    (runDriver localOff (now - wnd) rsrcs icsrcs).1
        = ((resolvedItems localOff rsrcs icsrcs).filter
            fun it => within_window it.dt (now - wnd))
      ∧ (within_window t (now - wnd) = true ↔ now - wnd ≤ t)
      ∧ within_window (now - wnd) (now - wnd) = true
      ∧ within_window (now - wnd - 1) (now - wnd) = false := by
  refine ⟨?_, ?_, ?_, ?_⟩
  · simp only [runDriver, resolvedItems, List.filter_append,
      runRSSLoop_items, runICSLoop_items]
  · simp [within_window]
  · simp [within_window]
  · simp only [within_window, decide_eq_false_iff_not]
    omega

/-- C2: the claim says a resolved timestamp carrying no explicit timezone is
interpreted as UTC, never as local time.  The RSS free-text path of the
multi-source variant (src/main.py line 58) violates this: it applies
`astimezone(timezone.utc)` directly to the parsed datetime, and Python's
`astimezone` presumes a *naive* datetime is in the system local timezone.
Here an entry whose `published` parses to the naive wall clock
2024-03-15 12:00:00 (instant 1710504000 if read as UTC) on a system at UTC-5
is stored as instant 1710522000 (17:00:00 UTC), not 1710504000. -/
theorem C2_naive_rss_text_uses_local_zone :
    ((fetchRSS (-18000) "u" none
        [⟨some (some ⟨1710504000, none⟩), none, none, none, some "T", none⟩]).map
      fun it => it.dt) = [1710522000]
    ∧ (1710522000 : Int) ≠ 1710504000 := by
  exact ⟨rfl, by decide⟩

/-- C3: for every RSS entry, the resolved timestamp is the first successfully
parsed value among the free-text fields in the order `published`, `updated`,
`created`, a throwing parse being treated as an absent field, and the
structured `published_parsed` tuple, interpreted as UTC, is used only when no
text field parses: the code's resolver agrees with the spec's prioritized
short-circuiting attempt list on every entry, and a tuple-derived timestamp
(explicit offset `0`) is stored as exactly its wall-clock instant. -/
theorem C3_rss_fallback_chain (e : RSSEntry) (localOff w : Int) :
    resolveRSS e = specResolveRSS e
      ∧ rssStoredInstant localOff ⟨w, some 0⟩ = w := by
  constructor
  · rcases e with ⟨(_ | (_ | p)), (_ | (_ | q)), (_ | (_ | r)), (_ | pp), t, l⟩ <;> rfl
  · simp [rssStoredInstant]

/-- C4 counterexample: the claim says a date-only DTSTART of 2024-03-15 is
displayed with time `12:00`.  The code does normalize it to 12:00 UTC on that
date, but the renderer converts to `America/New_York`, so the rendered
display string is `2024-03-15 08:00` (EDT), not `... 12:00`. -/
theorem C4_counterexample :
    dtstartToUTC (DTStartVal.dateOnly 2024 3 15) = ⟨2024, 3, 15, 12, 0, 0⟩
      ∧ iso_ny true ⟨2024, 3, 15, 12, 0, 0⟩ = "2024-03-15 08:00"
      ∧ "2024-03-15 08:00" ≠ "2024-03-15 12:00" := by
  exact ⟨rfl, by decide, by decide⟩

/-- C4 (amended): for every ICS VEVENT whose DTSTART is a date-only value
`(y, m, d)`, the resolver normalizes it to 12:00 UTC on that calendar date,
and the rendered display (the `America/New_York` conversion of that instant)
falls on that same calendar date — never the previous or next day — with
minute `00` and hour `07` or `08` (12:00 UTC shifted by the New York offset),
not `12`. -/
theorem C4_date_only_noon_utc_same_display_date (y m d : Int) :
    dtstartToUTC (DTStartVal.dateOnly y m d) = ⟨y, m, d, 12, 0, 0⟩
      ∧ (nyFromUTC ⟨y, m, d, 12, 0, 0⟩).year = y
      ∧ (nyFromUTC ⟨y, m, d, 12, 0, 0⟩).month = m
      ∧ (nyFromUTC ⟨y, m, d, 12, 0, 0⟩).day = d
      ∧ (nyFromUTC ⟨y, m, d, 12, 0, 0⟩).minute = 0
      ∧ ((nyFromUTC ⟨y, m, d, 12, 0, 0⟩).hour = 7
          ∨ (nyFromUTC ⟨y, m, d, 12, 0, 0⟩).hour = 8)
      ∧ iso_ny true ⟨y, m, d, 12, 0, 0⟩ = fmtYMDHM (nyFromUTC ⟨y, m, d, 12, 0, 0⟩) := by
  have hEst : addSeconds (⟨y, m, d, 12, 0, 0⟩ : CivilDT) (-18000) = ⟨y, m, d, 7, 0, 0⟩ := rfl
  have hEdt : addSeconds (⟨y, m, d, 12, 0, 0⟩ : CivilDT) (-14400) = ⟨y, m, d, 8, 0, 0⟩ := rfl
  have hny : nyFromUTC ⟨y, m, d, 12, 0, 0⟩ = ⟨y, m, d, (if nyIsDST ⟨y, m, d, 12, 0, 0⟩ then 8 else 7), 0, 0⟩ := by
    unfold nyFromUTC nyOffsetSec
    cases h : nyIsDST ⟨y, m, d, 12, 0, 0⟩ <;> simp [h, hEst, hEdt]
  refine ⟨rfl, ?_, ?_, ?_, ?_, ?_, rfl⟩ <;> rw [hny]
  cases h : nyIsDST ⟨y, m, d, 12, 0, 0⟩ <;> simp

/-- C5: within each category section of the rendered report, the items are
listed sorted by normalized timestamp descending (every earlier listed item's
timestamp is ≥ every later one's, so in particular adjacent pairs satisfy
`timestamp[i] ≥ timestamp[i+1]`), and items of equal timestamp keep their
original arrival order (the listed order restricted to any one timestamp
value is the arrival order restricted to it — a stable sort). -/
theorem C5_sections_sorted_descending_stable (items : List Item) (v : Int) :
    List.Pairwise (fun a b => b.dt ≤ a.dt) (rssRendered items)
      ∧ List.Pairwise (fun a b => b.dt ≤ a.dt) (icsRendered items)
      ∧ (rssRendered items).filter (fun it => it.dt == v)
          = (items.filter fun i => i.type = ItemType.rss).filter (fun it => it.dt == v)
      ∧ (icsRendered items).filter (fun it => it.dt == v)
          = (items.filter fun i => i.type = ItemType.ics).filter (fun it => it.dt == v) := by
  exact ⟨sortDesc_pairwise _, sortDesc_pairwise _, sortDesc_filter v _, sortDesc_filter v _⟩

/-- C6: a record for which no timestamp resolves — an RSS entry none of whose
text fields parses and with no structured fallback, or an ICS component
without DTSTART — is silently dropped: the whole driver run (collected items
*and* the stderr warning lines) is identical to the run on the same feed with
that record removed, so it yields no item, never reaches the report, and
emits no warning. -/
theorem C6_unresolvable_records_silently_dropped
    (localOff since : Int) (u url : String) (ft : Option String)
    (l1 l2 : List RSSEntry) (e : RSSEntry)
    (rest : List (String × RSSFetch)) (isrcs : List (String × ICSFetch))
    (rsrcs : List (String × RSSFetch)) (m1 m2 : List ICSComp) (c : ICSComp)
    (irest : List (String × ICSFetch)) (date : String) :
    (resolveRSS e = none →
        runDriver localOff since ((u, Except.ok (ft, l1 ++ e :: l2)) :: rest) isrcs
            = runDriver localOff since ((u, Except.ok (ft, l1 ++ l2)) :: rest) isrcs
          ∧ renderMarkdown
              (runDriver localOff since ((u, Except.ok (ft, l1 ++ e :: l2)) :: rest) isrcs).1 date
            = renderMarkdown
              (runDriver localOff since ((u, Except.ok (ft, l1 ++ l2)) :: rest) isrcs).1 date)
      ∧ (c.dtstart = none →
        runDriver localOff since rsrcs ((url, Except.ok (m1 ++ c :: m2)) :: irest)
            = runDriver localOff since rsrcs ((url, Except.ok (m1 ++ m2)) :: irest)
          ∧ renderMarkdown
              (runDriver localOff since rsrcs ((url, Except.ok (m1 ++ c :: m2)) :: irest)).1 date
            = renderMarkdown
              (runDriver localOff since rsrcs ((url, Except.ok (m1 ++ m2)) :: irest)).1 date) := by
  constructor
  · intro h
    have hdrv : runDriver localOff since ((u, Except.ok (ft, l1 ++ e :: l2)) :: rest) isrcs
        = runDriver localOff since ((u, Except.ok (ft, l1 ++ l2)) :: rest) isrcs := by
      simp only [runDriver, runRSSLoop, fetchRSS_drop localOff u ft h l1 l2]
    exact ⟨hdrv, by rw [hdrv]⟩
  · intro h
    have hdrv : runDriver localOff since rsrcs ((url, Except.ok (m1 ++ c :: m2)) :: irest)
        = runDriver localOff since rsrcs ((url, Except.ok (m1 ++ m2)) :: irest) := by
      simp only [runDriver, runICSLoop, fetchICS_drop url h m1 m2]
    exact ⟨hdrv, by rw [hdrv]⟩

/-- C6 witness: an RSS entry with every timestamp field absent and an ICS
VEVENT without DTSTART, each the sole record of its source, leave the run
unchanged. -/
theorem C6_witness :
    (runDriver 0 0 [("u", Except.ok (none, [(⟨none, none, none, none, none, none⟩ : RSSEntry)]))] []
        = runDriver 0 0 [("u", Except.ok (none, ([] : List RSSEntry)))] [])
      ∧ (runDriver 0 0 [] [("c", Except.ok [(⟨"VEVENT", none, none, none, none⟩ : ICSComp)])]
        = runDriver 0 0 [] [("c", Except.ok ([] : List ICSComp))]) := by
  refine ⟨?_, ?_⟩
  · exact ((C6_unresolvable_records_silently_dropped 0 0 "u" "c" none [] []
      ⟨none, none, none, none, none, none⟩ [] [] [] [] [] ⟨"VEVENT", none, none, none, none⟩
      [] "d").1 rfl).1
  · exact ((C6_unresolvable_records_silently_dropped 0 0 "u" "c" none [] []
      ⟨none, none, none, none, none, none⟩ [] [] [] [] [] ⟨"VEVENT", none, none, none, none⟩
      [] "d").2 rfl).1

lemma hyperlinkLine_ne_plainLine (d t l s : String) :
    hyperlinkLine d t l s ≠ plainLine d t s := by
  intro h
  have hlen := congrArg String.length h
  have e1 : ("- **" : String).length = 4 := rfl
  have e2 : ("** — [" : String).length = 6 := rfl
  have e3 : ("](" : String).length = 2 := rfl
  have e4 : (")  _" : String).length = 4 := rfl
  have e5 : ("_" : String).length = 1 := rfl
  have e6 : ("** — " : String).length = 5 := rfl
  have e7 : ("  _" : String).length = 3 := rfl
  simp only [hyperlinkLine, plainLine, String.length_append,
    e1, e2, e3, e4, e5, e6, e7] at hlen
  omega

/-- C7 counterexample: the claim says a line with an empty `link` renders the
title as plain text.  A press-release item with an empty link is nonetheless
rendered by the RSS bullet f-string in hyperlink markup (`[title]()`), which
differs from the plain-text form. -/
theorem C7_counterexample :
    rssBullet ⟨ItemType.rss, "Mass.gov", "Hearing notice", "", 1710504000⟩
        = hyperlinkLine "2024-03-15 08:00" "Hearing notice" "" "Mass.gov"
      ∧ hyperlinkLine "2024-03-15 08:00" "Hearing notice" "" "Mass.gov"
        ≠ plainLine "2024-03-15 08:00" "Hearing notice" "Mass.gov" := by
  exact ⟨by decide, hyperlinkLine_ne_plainLine _ _ _ _⟩

/-- C7 (amended): event (ICS) item lines render the title as a hyperlink
exactly when the link is non-empty and as plain text when it is empty, and
hyperlink and plain forms never coincide; press-release (RSS) item lines,
however, always use hyperlink markup, with an empty target when the link is
the empty string. -/
theorem C7_hyperlink_iff_link_nonempty_events_only (it : Item) :
    rssBullet it = hyperlinkLine (displayNY it.dt) (cleanTitle it.title) it.link it.source
      ∧ icsBullet it
          = (if it.link = ""
             then plainLine (displayNY it.dt) (cleanTitle it.title) it.source
             else hyperlinkLine (displayNY it.dt) (cleanTitle it.title) it.link it.source)
      ∧ hyperlinkLine (displayNY it.dt) (cleanTitle it.title) it.link it.source
          ≠ plainLine (displayNY it.dt) (cleanTitle it.title) it.source := by
  refine ⟨rfl, ?_, hyperlinkLine_ne_plainLine _ _ _ _⟩
  by_cases h : it.link = "" <;> simp [icsBullet, hyperlinkLine, plainLine, h]

/-- C8 counterexample: the claim says every produced item title is non-empty.
An ICS VEVENT whose SUMMARY property is present but blank produces an item
whose title is the empty string — the `"(no title)"` placeholder is only the
`.get` default for a *missing* property. -/
theorem C8_counterexample :
    ((fetchICS "cal"
        [⟨"VEVENT", some "", some (DTStartVal.dateOnly 2024 3 15), none, none⟩]).map
      fun it => it.title) = [""] := by
  decide

/-- C8 (amended): every item produced by the RSS adapter has a non-empty
title (a missing or blank entry title is replaced by the `"(untitled)"`
placeholder), and the ICS adapter substitutes its `"(no title)"` placeholder
exactly when the summary property is missing — a present-but-blank summary is
used verbatim, so an ICS item title may be empty. -/
theorem C8_titles (localOff : Int) (u : String) (ft : Option String)
    (entries : List RSSEntry) (it : Item) (c : ICSComp) :
    (it ∈ fetchRSS localOff u ft entries → it.title ≠ "")
      ∧ (c.summary = none → icsTitleOf c = "(no title)") := by
  constructor
  · intro hmem
    simp only [fetchRSS, List.mem_filterMap, Option.map_eq_some'] at hmem
    obtain ⟨e, _, p, _, rfl⟩ := hmem
    show rssTitleOf e ≠ ""
    by_cases h : stripStr (e.title.getD "") = "" <;> simp [rssTitleOf, h]
  · intro h
    simp [icsTitleOf, h]

/-- C8 witness: a resolvable entry with title `"T"` yields an item with the
non-empty title `"T"`, and a VEVENT with no SUMMARY gets the placeholder. -/
theorem C8_witness :
    ({ type := ItemType.rss, source := "u", title := "T", link := "", dt := 0 } : Item).title ≠ ""
      ∧ icsTitleOf ⟨"VEVENT", none, none, none, none⟩ = "(no title)" := by
  constructor
  · exact (C8_titles 0 "u" none [⟨some (some ⟨0, some 0⟩), none, none, none, some "T", none⟩]
      { type := ItemType.rss, source := "u", title := "T", link := "", dt := 0 }
      ⟨"VEVENT", none, none, none, none⟩).1 (by decide)
  · exact (C8_titles 0 "u" none [] ⟨ItemType.rss, "u", "T", "", 0⟩
      ⟨"VEVENT", none, none, none, none⟩).2 rfl

/-- C9: a fetch or parse failure of one source is recoverable: the collected
items of a run containing a failing source (RSS or ICS) are exactly those of
the same run without it — every other source's contribution is unaffected and
the failing source contributes zero items — and the stderr warning lines
contain a `[WARN]` line naming the offending source URL and the underlying
cause; the fold is total, so the run always completes. -/
theorem C9_source_failure_isolated_and_warned
    (localOff since : Int) (pre post : List (String × RSSFetch)) (u msg : String)
    (isrcs : List (String × ICSFetch)) (rsrcs : List (String × RSSFetch))
    (ipre ipost : List (String × ICSFetch)) (iu imsg : String) :
    (runDriver localOff since (pre ++ (u, Except.error msg) :: post) isrcs).1
        = (runDriver localOff since (pre ++ post) isrcs).1
      ∧ ("[WARN] RSS fetch failed: " ++ u ++ ": " ++ msg)
          ∈ (runDriver localOff since (pre ++ (u, Except.error msg) :: post) isrcs).2
      ∧ (runDriver localOff since rsrcs (ipre ++ (iu, Except.error imsg) :: ipost)).1
        = (runDriver localOff since rsrcs (ipre ++ ipost)).1
      ∧ ("[WARN] ICS fetch failed: " ++ iu ++ ": " ++ imsg)
          ∈ (runDriver localOff since rsrcs (ipre ++ (iu, Except.error imsg) :: ipost)).2 := by
  refine ⟨?_, ?_, ?_, ?_⟩
  · simp only [runDriver,
      (runRSSLoop_mid_error localOff since u msg post pre).1]
  · exact List.mem_append.mpr
      (Or.inl (runRSSLoop_mid_error localOff since u msg post pre).2)
  · simp only [runDriver,
      (runICSLoop_mid_error since iu imsg ipost ipre).1]
  · exact List.mem_append.mpr
      (Or.inr (runICSLoop_mid_error since iu imsg ipost ipre).2)

/-- C10: in the rendered report neither category section is ever silently
omitted: a category with zero retained items renders its header together with
an explicit "no items" placeholder line, and a category with retained items
renders its header and lists the bullet line of every item (in the rendered
order, as a sublist of the document's lines). -/
theorem C10_empty_sections_render_placeholders (items : List Item) (date : String) :
    (if items.filter (fun i => i.type = ItemType.rss) = [] then
        "## Press Releases" ∈ renderMarkdown items date
          ∧ "> No new items in the last 24 hours." ∈ renderMarkdown items date
      else
        "## Press Releases (last 24h)" ∈ renderMarkdown items date
          ∧ ((rssRendered items).map rssBullet).Sublist (renderMarkdown items date))
    ∧ (if items.filter (fun i => i.type = ItemType.ics) = [] then
        "## Hearings & Meetings" ∈ renderMarkdown items date
          ∧ "> No events starting in the last 24 hours." ∈ renderMarkdown items date
      else
        "## Hearings & Meetings (last 24h window start times)" ∈ renderMarkdown items date
          ∧ ((icsRendered items).map icsBullet).Sublist (renderMarkdown items date)) := by
  constructor
  · by_cases h : items.filter (fun i => i.type = ItemType.rss) = []
    · have hr : rssRendered items = [] := by
        simp [rssRendered, h, sortDesc]
      simp only [h, if_pos]
      constructor <;>
        · simp only [renderMarkdown, hr, reduceIte]
          by_cases h2 : icsRendered items = [] <;> simp [h2]
    · have hr : rssRendered items ≠ [] := fun hc =>
        h ((sortDesc_eq_nil_iff _).mp hc)
      simp only [h, if_neg, if_false]
      constructor
      · simp only [renderMarkdown, if_neg hr]
        by_cases h2 : icsRendered items = [] <;> simp [h2]
      · simp only [renderMarkdown, if_neg hr]
        have step : ((rssRendered items).map rssBullet).Sublist
            (((rssRendered items).map rssBullet) ++
              ([""] ++ (if icsRendered items = [] then
                  ["## Hearings & Meetings", "> No events starting in the last 24 hours.", ""]
                else
                  ["## Hearings & Meetings (last 24h window start times)", ""]
                    ++ (icsRendered items).map icsBullet ++ [""]))) :=
          List.sublist_append_left _ _
        simpa [List.append_assoc] using
          ((((step.cons "").cons "## Press Releases (last 24h)").cons "").cons
            ("# Massachusetts Policy Feed — " ++ date))
  · by_cases h : items.filter (fun i => i.type = ItemType.ics) = []
    · have hr : icsRendered items = [] := by
        simp [icsRendered, h, sortDesc]
      simp only [h, if_pos]
      constructor <;>
        · simp only [renderMarkdown, hr, reduceIte]
          by_cases h2 : rssRendered items = [] <;> simp [h2]
    · have hr : icsRendered items ≠ [] := fun hc =>
        h ((sortDesc_eq_nil_iff _).mp hc)
      simp only [h, if_neg, if_false]
      constructor
      · simp only [renderMarkdown, if_neg hr]
        by_cases h2 : rssRendered items = [] <;> simp [h2]
      · simp only [renderMarkdown, if_neg hr]
        have step : ((icsRendered items).map icsBullet).Sublist
            ("## Hearings & Meetings (last 24h window start times)" :: "" ::
              ((icsRendered items).map icsBullet ++ [""])) :=
          ((List.sublist_append_left _ _).cons "").cons _
        exact step.trans (List.sublist_append_right _ _)
